import Mathlib

/-!
Shallow embedding of the Crypto-Tracker backend (src/backend/app.py).

The portfolio table is modelled as a list of holdings; the sqlite schema
permits NULL in current_price and last_updated, hence those fields are
options.  Prices and quantities are modelled as rationals (the Python code
performs no arithmetic on them beyond identity float() coercion at the
points the claims are about).  HTTP calls are modelled by an outcome value:
either a parsed JSON payload or a request error (any requests.RequestException,
including exhausted retries); the environment (upstream service) is a pure
function from the request to such an outcome.
-/

/-- One row of the portfolio table (see init_db in app.py: every column but
the primary key is nullable; name/symbol/coin_id are always written by
add_coin, so only current_price and last_updated keep the option type
observable through the claims). -/
structure Holding where
  id : Nat
  coin_id : String
  name : String
  symbol : String
  quantity : Rat
  current_price : Option Rat
  last_updated : Option String
deriving DecidableEq, Repr

/-- Default row used with List.getD / List.getLastD. -/
def defHolding : Holding :=
  { id := 0, coin_id := "", name := "", symbol := "", quantity := 0,
    current_price := none, last_updated := none }

/-- Outcome of one HTTP GET as seen by http_get: either a parsed JSON body,
or any requests.RequestException (timeout, connection error, bad status after
the retry budget of the mounted adapter is spent). -/
inductive HttpResult (α : Type) where
  | success (data : α)
  | requestError
deriving DecidableEq, Repr

/-- http_get in app.py: returns the parsed JSON on success and None on any
RequestException (after logging a warning); it never propagates the
exception. -/
def http_get {α : Type} : HttpResult α → Option α
  | .success d => some d
  | .requestError => none

/-- One entry of the simple/price JSON response: a sub-object that may or
may not carry a "usd" field. -/
structure PriceEntry where
  usd : Option Rat
deriving DecidableEq, Repr

/-- The simple/price JSON response: an object keyed by coin id. -/
abbrev PriceResp := List (String × PriceEntry)

/-- prices.get(coin_id, \x7b\x7d).get("usd"): the usd price of an id, absent both
when the id is missing from the response and when its entry lacks "usd". -/
def getUsd (resp : PriceResp) (cid : String) : Option Rat :=
  match resp.lookup cid with
  | some e => e.usd
  | none => none

/-- prices.get(coin_id, \x7b\x7d).get("usd", 0.0): as getUsd but defaulting to 0.0,
as used by add_coin to seed a new row. -/
def getUsdD0 (resp : PriceResp) (cid : String) : Rat :=
  match resp.lookup cid with
  | some e => e.usd.getD 0
  | none => 0

/-- The ids parameter built by get_simple_prices for a list input:
",".join(ids). -/
def ids_param (ids : List String) : String := String.intercalate "," ids

/-- get_simple_prices in app.py: builds one request whose ids parameter is
the comma-join of the input list, issues it once through http_get, and
returns the JSON object or \x7b\x7d on failure.  The second component is the
trace of ids parameters of the requests issued (always exactly one). -/
def get_simple_prices (http : String → HttpResult PriceResp) (ids : List String) :
    PriceResp × List String :=
  ((http_get (http (ids_param ids))).getD [], [ids_param ids])

/-- One element of the coins/markets response used by get_top_coins. -/
structure CoinMarket where
  id : String
  name : String
  symbol : String
  current_price : Rat
  market_cap : Rat
  price_change_percentage_24h : Option Rat
deriving DecidableEq, Repr

/-- get_top_coins in app.py: data or [] over the http_get outcome. -/
def get_top_coins (r : HttpResult (List CoinMarket)) : List CoinMarket :=
  (http_get r).getD []

/-- The market_chart JSON body: a "prices" field that may be absent,
holding (unix-millisecond timestamp, price) pairs. -/
structure ChartData where
  prices : Option (List (Int × Rat))
deriving DecidableEq, Repr

/-- round(x, 2) on a price value. -/
def round2 (x : Rat) : Rat := (round (x * 100) : Int) / 100

/-- get_btc_chart_7d in app.py.  fmt models
datetime.utcfromtimestamp(.).strftime("%b %d") applied to the
millisecond timestamp divided by 1000; the rest is translated directly:
data = http_get(...) or \x7b\x7d, prices = data.get("prices", []), parallel label
and rounded-value lists. -/
def get_btc_chart_7d (fmt : Rat → String) (r : HttpResult ChartData) :
    List String × List Rat :=
  let data : ChartData := (http_get r).getD { prices := none }
  let prices := data.prices.getD []
  (prices.map (fun p => fmt ((p.1 : Rat) / 1000)),
   prices.map (fun p => round2 p.2))

/-- SELECT DISTINCT coin_id FROM portfolio: the distinct coin ids present
in the table (SQL leaves the order unspecified; List.dedup is one
order-normal form of it). -/
def distinctCoinIds (rows : List Holding) : List String :=
  (rows.map (fun h => h.coin_id)).dedup

/-- Net effect of the UPDATE loop of refresh_portfolio_prices on one row:
a row whose coin id has a usd price in the response gets that price and the
shared timestamp; any other row is left untouched. -/
def refreshRow (prices : PriceResp) (now_iso : String) (h : Holding) : Holding :=
  match getUsd prices h.coin_id with
  | some p => { h with current_price := some p, last_updated := some now_iso }
  | none => h

/-- refresh_portfolio_prices in app.py: read the distinct coin ids, return
unchanged with no request when there are none, otherwise issue one batched
get_simple_prices call and update exactly the rows whose id got a usd price,
all with the single timestamp now_iso computed once.  The second component
is the trace of ids parameters of the gateway requests issued. -/
def refresh_portfolio_prices (http : String → HttpResult PriceResp)
    (now_iso : String) (rows : List Holding) : List Holding × List String :=
  let ids := distinctCoinIds rows
  if ids.isEmpty then (rows, [])
  else
    let res := get_simple_prices http ids
    (rows.map (refreshRow res.1 now_iso), res.2)

/-- The whitespace predicate of the Python str type (Py_UNICODE_ISSPACE,
Unicode 14.0 as shipped with CPython 3.11): the control characters 09-0d
and 1c-1f, space, NEL (85), NBSP (a0), and the Unicode line, paragraph and
space separators.  This is the set str.strip() with no argument removes. -/
def pySpace (c : Char) : Bool :=
  let n := c.toNat
  (0x9 ≤ n && n ≤ 0xd) || (0x1c ≤ n && n ≤ 0x1f) || n == 0x20 || n == 0x85 ||
    n == 0xa0 || n == 0x1680 || (0x2000 ≤ n && n ≤ 0x200a) || n == 0x2028 ||
    n == 0x2029 || n == 0x202f || n == 0x205f || n == 0x3000

/-- The whitespace the float builtin accepts around a literal: the
C-locale isspace characters plus the separators CPython's
TransformDecimalAndSpaceToASCII maps to a plain space.  Empirically (each
character tested against CPython 3.11) this is pySpace minus the
file/group/record/unit separators 1c-1f, which float() rejects even though
str.strip() removes them. -/
def pyFloatSpace (c : Char) : Bool :=
  pySpace c && !(0x1c ≤ c.toNat && c.toNat ≤ 0x1f)

/-- The Python str.strip() method with no argument: remove leading and
trailing characters of the pySpace set. -/
def pyStrip (s : String) : String :=
  String.mk (((s.data.dropWhile pySpace).reverse.dropWhile pySpace).reverse)

/-- The Python str.lower() method on the ASCII fragment. -/
def pyLower (s : String) : String :=
  String.mk (s.data.map Char.toLower)

/-- Leading decimal digits of a character list, and the rest. -/
def takeDigits : List Char → List Char × List Char
  | [] => ([], [])
  | c :: cs =>
    if c.isDigit then
      let r := takeDigits cs
      (c :: r.1, r.2)
    else ([], c :: cs)

/-- Numeric value of a digit string. -/
def digitsVal (cs : List Char) : Nat :=
  cs.foldl (fun acc c => acc * 10 + (c.toNat - 48)) 0

/-- Exponent digits after an optional sign: they must be nonempty and end
the literal. -/
def parseExpDigits (mant : Rat) (neg : Bool) (cs : List Char) : Option Rat :=
  let d := takeDigits cs
  if d.1.isEmpty then none
  else if d.2.isEmpty then
    some (if neg then mant / (10 : Rat) ^ digitsVal d.1
          else mant * (10 : Rat) ^ digitsVal d.1)
  else none

/-- Optionally signed exponent part. -/
def parseSignedExp (mant : Rat) : List Char → Option Rat
  | '+' :: rest => parseExpDigits mant false rest
  | '-' :: rest => parseExpDigits mant true rest
  | rest => parseExpDigits mant false rest

/-- Rest of a float literal after the mantissa: empty, or an exponent
marker followed by a signed exponent. -/
def parseExpPart (mant : Rat) : List Char → Option Rat
  | [] => some mant
  | 'e' :: rest => parseSignedExp mant rest
  | 'E' :: rest => parseSignedExp mant rest
  | _ => none

/-- Unsigned float literal: digits, digits '.', digits '.' digits or
'.' digits, each with an optional exponent. -/
def parseUnsigned (cs : List Char) : Option Rat :=
  let ip := takeDigits cs
  match ip.2 with
  | '.' :: rest2 =>
    let fp := takeDigits rest2
    if ip.1.isEmpty && fp.1.isEmpty then none
    else
      parseExpPart
        ((digitsVal ip.1 : Rat) + (digitsVal fp.1 : Rat) / (10 : Rat) ^ fp.1.length)
        fp.2
  | rest =>
    if ip.1.isEmpty then none else parseExpPart (digitsVal ip.1 : Rat) rest

/-- Zero-digit code point of every Unicode 14.0 decimal-digit block
(category Nd, the table of CPython 3.11); each block holds the ten digits
zero to nine consecutively.  CPython normalizes any of these digits to its
ASCII digit before parsing a float. -/
def ndZeroBases : List Nat :=
  [0x30, 0x660, 0x6f0, 0x7c0, 0x966, 0x9e6, 0xa66, 0xae6, 0xb66, 0xbe6,
   0xc66, 0xce6, 0xd66, 0xde6, 0xe50, 0xed0, 0xf20, 0x1040, 0x1090, 0x17e0,
   0x1810, 0x1946, 0x19d0, 0x1a80, 0x1a90, 0x1b50, 0x1bb0, 0x1c40, 0x1c50,
   0xa620, 0xa8d0, 0xa900, 0xa9d0, 0xa9f0, 0xaa50, 0xabf0, 0xff10, 0x104a0,
   0x10d30, 0x11066, 0x110f0, 0x11136, 0x111d0, 0x112f0, 0x11450, 0x114d0,
   0x11650, 0x116c0, 0x11730, 0x118e0, 0x11950, 0x11c50, 0x11d50, 0x11da0,
   0x16a60, 0x16ac0, 0x16b50, 0x1d7ce, 0x1d7d8, 0x1d7e2, 0x1d7ec, 0x1d7f6,
   0x1e140, 0x1e2f0, 0x1e950, 0x1fbf0]

/-- Decimal value of a Unicode decimal digit (category Nd), when c is one. -/
def pyDigitVal (c : Char) : Option Nat :=
  (ndZeroBases.find? (fun b => b ≤ c.toNat && c.toNat ≤ b + 9)).map
    (fun b => c.toNat - b)

/-- CPython's TransformDecimalAndSpaceToASCII on one character: a Unicode
decimal digit becomes its ASCII digit, float-acceptable whitespace becomes
a plain space, anything else is untouched. -/
def pyTransform (c : Char) : Char :=
  match pyDigitVal c with
  | some d => Char.ofNat (0x30 + d)
  | none => if pyFloatSpace c then ' ' else c

/-- Validity of the PEP 515 underscores in the tail of a normalized
literal, given the character just before it: every underscore must be
directly preceded and followed by a digit. -/
def underscoresOKFrom (prev : Char) : List Char → Bool
  | [] => true
  | c :: cs =>
    if c = '_' then
      (prev.isDigit && (match cs with
        | d :: _ => d.isDigit
        | [] => false)) && underscoresOKFrom c cs
    else underscoresOKFrom c cs

/-- Validity of the PEP 515 underscores of a whole normalized literal. -/
def underscoresOK : List Char → Bool
  | [] => true
  | c :: cs => c != '_' && underscoresOKFrom c cs

/-- The Python float builtin on strings, idealized over the rationals.
Mirrors CPython's pipeline: normalize Unicode decimal digits and
whitespace to ASCII (pyTransform), strip the surrounding spaces, validate
the PEP 515 underscore grouping, drop the underscores, then parse an
optional sign and a decimal mantissa with optional fraction and exponent.
Returns none exactly where float() raises ValueError, under two deliberate
idealizations of the Rat value domain: the result is the exact decimal
value of the literal (no binary rounding, no overflow to an infinite
float), and the non-finite literals inf/infinity/nan, which have no
rational value, are outside the model (no claim touches them). -/
def pythonFloat (s : String) : Option Rat :=
  let t := s.data.map pyTransform
  let core := ((t.dropWhile (fun c => c == ' ')).reverse.dropWhile
    (fun c => c == ' ')).reverse
  if underscoresOK core then
    match core.filter (fun c => c != '_') with
    | '+' :: rest => parseUnsigned rest
    | '-' :: rest => (parseUnsigned rest).map (fun q => -q)
    | rest => parseUnsigned rest
  else none

/-- The add-holding form submission: each field may be missing. -/
structure AddForm where
  coin_id : Option String
  name : Option String
  symbol : Option String
  quantity : Option String
deriving DecidableEq, Repr

/-- add_coin (POST branch) in app.py: default-and-normalize every field
(request.form.get with its default, .strip(), .lower()), parse the quantity
with float() defaulting to 0.0 on ValueError, seed the price from one
single-id get_simple_prices call (0.0 when absent), stamp the current time,
and append the new row.  newId models the AUTOINCREMENT primary key the
database assigns; the second component is the trace of gateway requests. -/
def add_coin (http : String → HttpResult PriceResp) (newId : Nat)
    (now_iso : String) (form : AddForm) (rows : List Holding) :
    List Holding × List String :=
  let coin_id := pyLower (pyStrip (form.coin_id.getD ""))
  let name := pyStrip (form.name.getD "")
  let symbol := pyLower (pyStrip (form.symbol.getD ""))
  let quantity_raw := pyStrip (form.quantity.getD "0")
  let quantity := (pythonFloat quantity_raw).getD 0
  let res := get_simple_prices http [coin_id]
  let usd_price := getUsdD0 res.1 coin_id
  (rows ++ [{ id := newId, coin_id := coin_id, name := name, symbol := symbol,
              quantity := quantity, current_price := some usd_price,
              last_updated := some now_iso }],
   res.2)

/-- delete_coin in app.py: DELETE FROM portfolio WHERE id=item_id. -/
def delete_coin (item_id : Nat) (rows : List Holding) : List Holding :=
  rows.filter (fun h => h.id != item_id)

/-- Order on optional timestamps: equal-shaped and pointwise less-or-equal
(ISO-8601 strings compare chronologically as strings). -/
def luLe : Option String → Option String → Prop
  | none, none => True
  | some a, some b => a ≤ b
  | _, _ => False

instance (a b : Option String) : Decidable (luLe a b) := by
  cases a <;> cases b <;> simp only [luLe] <;> infer_instance

/-- A row with both cached-price fields present (non-NULL). -/
def rowComplete (h : Holding) : Prop :=
  h.current_price.isSome = true ∧ h.last_updated.isSome = true

instance (h : Holding) : Decidable (rowComplete h) := by
  unfold rowComplete; infer_instance

/-- The batched price result one refresh_portfolio_prices call consults: the
shaped response of its single get_simple_prices call on the distinct ids. -/
def refreshPrices (http : String → HttpResult PriceResp) (rows : List Holding) :
    PriceResp :=
  (get_simple_prices http (distinctCoinIds rows)).1

/-- Fixture: an upstream on which every request fails after the retry
budget. -/
def httpFail : String → HttpResult PriceResp := fun _ => .requestError

/-- Fixture: three holdings, two of them referencing bitcoin with different
stale cached prices. -/
def rowsEx : List Holding :=
  [{ id := 1, coin_id := "bitcoin", name := "Bitcoin", symbol := "btc",
     quantity := 2, current_price := some 40000, last_updated := some "T0" },
   { id := 2, coin_id := "bitcoin", name := "Bitcoin", symbol := "btc",
     quantity := 1, current_price := some 41000, last_updated := some "T0" },
   { id := 3, coin_id := "ethereum", name := "Ethereum", symbol := "eth",
     quantity := 5, current_price := some 2500, last_updated := some "T0" }]

/-- Fixture: an upstream that knows prices exactly for the batched
bitcoin-ethereum request and fails on anything else. -/
def httpEx : String → HttpResult PriceResp := fun p =>
  if p = "bitcoin,ethereum" then
    .success [("bitcoin", { usd := some 50000 }), ("ethereum", { usd := some 3000 })]
  else .requestError

/-- Fixture: a single holding whose coin id the upstream has no data for. -/
def rowsMissing : List Holding :=
  [{ id := 9, coin_id := "dogecoin", name := "Doge", symbol := "doge",
     quantity := 4, current_price := some 7, last_updated := some "OLD" }]

/-- Fixture: a form submission with a malformed quantity. -/
def formAbc : AddForm :=
  { coin_id := some "bogus-coin-xyz", name := some "X", symbol := some "x",
    quantity := some "abc" }

/-- Fixture: a form submission with a negative quantity string. -/
def formNeg : AddForm :=
  { coin_id := some "bitcoin", name := some "B", symbol := some "btc",
    quantity := some "-5" }

/-- Fixture: a form submission whose coin_id field is missing. -/
def formBlank : AddForm :=
  { coin_id := none, name := some "N", symbol := some "S",
    quantity := some "3" }

/-- A refresh never changes a row's coin id. -/
theorem coin_id_refreshRow (P : PriceResp) (t : String) (h : Holding) :
    (refreshRow P t h).coin_id = h.coin_id := by
  unfold refreshRow
  cases getUsd P h.coin_id <;> rfl

/-- Row-wise description of refresh_portfolio_prices: position i of the
refreshed table is position i of the old table passed through refreshRow
with the batched price result. -/
theorem refresh_fst_getElem? (http : String → HttpResult PriceResp)
    (t : String) (rows : List Holding) (i : Nat) :
    (refresh_portfolio_prices http t rows).1[i]?
      = (rows[i]?).map (refreshRow (refreshPrices http rows) t) := by
  unfold refresh_portfolio_prices
  by_cases hE : (distinctCoinIds rows).isEmpty
  · have hnil : rows = [] :=
      List.map_eq_nil_iff.1 ((List.dedup_eq_nil _).1 (List.isEmpty_iff.1 hE))
    subst hnil
    simp [distinctCoinIds]
  · simp [hE, refreshPrices, List.getElem?_map]

/-- C1: for every holding whose coin_id is absent from the batched price
result of a refresh (or whose entry lacks a usd price — both are getUsd =
none), that holding's row, in particular its current_price and
last_updated, is unchanged by that refresh; only rows whose coin_id has a
present price are updated. -/
theorem refresh_missing_price_frame (http : String → HttpResult PriceResp)
    (t : String) (rows : List Holding) (i : Nat) (h : Holding)
    (hget : rows[i]? = some h)
    (hmiss : getUsd (refreshPrices http rows) h.coin_id = none) :
    (refresh_portfolio_prices http t rows).1[i]? = some h := by
  rw [refresh_fst_getElem?, hget]
  simp [refreshRow, hmiss]

/-- Witness for C1: a dogecoin holding whose id the upstream has no price
for keeps its stale cached price and timestamp through a refresh. -/
theorem refresh_missing_price_frame_witness :
    (refresh_portfolio_prices httpEx "T1" rowsMissing).1[0]?
      = some { id := 9, coin_id := "dogecoin", name := "Doge", symbol := "doge",
               quantity := 4, current_price := some 7, last_updated := some "OLD" } :=
  refresh_missing_price_frame httpEx "T1" rowsMissing 0
    { id := 9, coin_id := "dogecoin", name := "Doge", symbol := "doge",
      quantity := 4, current_price := some 7, last_updated := some "OLD" }
    (by decide) (by decide)

/-- C5: within a single refresh, every row that is updated (its coin id got
a usd price in the batched result) receives the one timestamp now_iso that
the refresh computed once. -/
theorem refresh_shared_timestamp (http : String → HttpResult PriceResp)
    (t : String) (rows : List Holding) (i : Nat) (h : Holding) (p : Rat)
    (hget : rows[i]? = some h)
    (hp : getUsd (refreshPrices http rows) h.coin_id = some p) :
    ((refresh_portfolio_prices http t rows).1[i]?).map Holding.last_updated
      = some (some t) := by
  rw [refresh_fst_getElem?, hget]
  simp [refreshRow, hp]

/-- Witness for C5: after a successful batched refresh both the first and
the third example rows carry the refresh's timestamp. -/
theorem refresh_shared_timestamp_witness :
    ((refresh_portfolio_prices httpEx "T1" rowsEx).1[0]?).map Holding.last_updated
        = some (some "T1") ∧
    ((refresh_portfolio_prices httpEx "T1" rowsEx).1[2]?).map Holding.last_updated
        = some (some "T1") :=
  ⟨refresh_shared_timestamp httpEx "T1" rowsEx 0
      { id := 1, coin_id := "bitcoin", name := "Bitcoin", symbol := "btc",
        quantity := 2, current_price := some 40000, last_updated := some "T0" }
      50000 (by decide) (by decide),
   refresh_shared_timestamp httpEx "T1" rowsEx 2
      { id := 3, coin_id := "ethereum", name := "Ethereum", symbol := "eth",
        quantity := 5, current_price := some 2500, last_updated := some "T0" }
      3000 (by decide) (by decide)⟩

/-- C2: a refresh reads the distinct coin-id set; when it is empty it
performs no gateway request at all and leaves the table unchanged;
otherwise it issues exactly one batched simple-price request, for the whole
distinct set, and every row whose coin id has price p in the batched result
ends with current_price p — so duplicate holdings of one coin receive the
same updated price. -/
theorem refresh_distinct_batching (http : String → HttpResult PriceResp)
    (t : String) (rows : List Holding) :
    (distinctCoinIds rows = [] → refresh_portfolio_prices http t rows = (rows, [])) ∧
    (distinctCoinIds rows ≠ [] →
      (refresh_portfolio_prices http t rows).2 = [ids_param (distinctCoinIds rows)]) ∧
    (∀ (i : Nat) (h : Holding) (p : Rat), rows[i]? = some h →
      getUsd (refreshPrices http rows) h.coin_id = some p →
      ((refresh_portfolio_prices http t rows).1[i]?).map Holding.current_price
        = some (some p)) := by
  refine ⟨?_, ?_, ?_⟩
  · intro hnil
    unfold refresh_portfolio_prices
    simp [hnil]
  · intro hne
    have hE : (distinctCoinIds rows).isEmpty = false := by
      simp [List.isEmpty_iff, hne]
    unfold refresh_portfolio_prices
    simp [hE, get_simple_prices]
  · intro i h p hget hp
    rw [refresh_fst_getElem?, hget]
    simp [refreshRow, hp]

/-- Witness for C2: with holdings bitcoin, bitcoin, ethereum the distinct
set has size 2, the single request carries the comma-joined distinct set,
and both bitcoin rows end with the same updated price. -/
theorem refresh_distinct_batching_witness :
    (distinctCoinIds rowsEx).length = 2 ∧
    (refresh_portfolio_prices httpEx "T1" rowsEx).2
        = [ids_param (distinctCoinIds rowsEx)] ∧
    ((refresh_portfolio_prices httpEx "T1" rowsEx).1[0]?).map Holding.current_price
        = some (some 50000) ∧
    ((refresh_portfolio_prices httpEx "T1" rowsEx).1[1]?).map Holding.current_price
        = some (some 50000) := by
  have H := refresh_distinct_batching httpEx "T1" rowsEx
  exact ⟨by decide, H.2.1 (by decide),
    H.2.2 0
      { id := 1, coin_id := "bitcoin", name := "Bitcoin", symbol := "btc",
        quantity := 2, current_price := some 40000, last_updated := some "T0" }
      50000 (by decide) (by decide),
    H.2.2 1
      { id := 2, coin_id := "bitcoin", name := "Bitcoin", symbol := "btc",
        quantity := 1, current_price := some 41000, last_updated := some "T0" }
      50000 (by decide) (by decide)⟩

/-- A refresh does not change the distinct coin-id set of the table. -/
theorem distinct_refresh (http : String → HttpResult PriceResp)
    (t : String) (rows : List Holding) :
    distinctCoinIds (refresh_portfolio_prices http t rows).1 = distinctCoinIds rows := by
  unfold refresh_portfolio_prices
  by_cases hE : (distinctCoinIds rows).isEmpty
  · simp [hE]
  · simp only [hE, Bool.false_eq_true, if_false]
    unfold distinctCoinIds
    rw [List.map_map]
    congr 1
    exact List.map_congr_left fun h _ => coin_id_refreshRow _ _ h

/-- luLe is reflexive. -/
theorem luLe_refl (x : Option String) : luLe x x := by
  cases x <;> simp [luLe]

/-- C6: refreshing twice in immediate succession against an unchanged
upstream leaves every stored current_price identical to after the first
refresh, and moves each last_updated to an equal or later value when the
second timestamp is not earlier than the first. -/
theorem refresh_idempotent (http : String → HttpResult PriceResp)
    (t1 t2 : String) (rows : List Holding) (hle : t1 ≤ t2) :
    (∀ i : Nat,
      ((refresh_portfolio_prices http t2
          (refresh_portfolio_prices http t1 rows).1).1[i]?).map Holding.current_price
        = (((refresh_portfolio_prices http t1 rows).1[i]?).map Holding.current_price)) ∧
    (∀ (i : Nat) (a b : Holding),
      (refresh_portfolio_prices http t1 rows).1[i]? = some a →
      (refresh_portfolio_prices http t2
          (refresh_portfolio_prices http t1 rows).1).1[i]? = some b →
      luLe a.last_updated b.last_updated) := by
  have hP : refreshPrices http (refresh_portfolio_prices http t1 rows).1
      = refreshPrices http rows := by
    unfold refreshPrices
    rw [distinct_refresh]
  constructor
  · intro i
    rw [refresh_fst_getElem?, hP, refresh_fst_getElem?]
    cases hg : rows[i]? with
    | none => rfl
    | some h =>
      simp only [Option.map_some']
      cases hc : getUsd (refreshPrices http rows) h.coin_id <;>
        simp [refreshRow, hc]
  · intro i a b ha hb
    rw [refresh_fst_getElem?, hP, refresh_fst_getElem?] at hb
    rw [refresh_fst_getElem?] at ha
    cases hg : rows[i]? with
    | none => rw [hg] at ha; exact absurd ha (by simp)
    | some h =>
      rw [hg] at ha hb
      simp only [Option.map_some', Option.some.injEq] at ha hb
      subst ha
      subst hb
      cases hc : getUsd (refreshPrices http rows) h.coin_id with
      | none => simp only [refreshRow, hc]; exact luLe_refl _
      | some p => simpa [refreshRow, hc, luLe] using hle

/-- Witness for C6: refreshing the example table twice at the same instant
keeps the bitcoin row's price identical and its timestamp equal or later. -/
theorem refresh_idempotent_witness :
    ((refresh_portfolio_prices httpEx "T1"
        (refresh_portfolio_prices httpEx "T1" rowsEx).1).1[0]?).map Holding.current_price
      = (((refresh_portfolio_prices httpEx "T1" rowsEx).1[0]?).map Holding.current_price) :=
  (refresh_idempotent httpEx "T1" "T1" rowsEx (le_refl "T1")).1 0

/-- Counterexample to C3: get_simple_prices does not deduplicate its input;
for the duplicate list [bitcoin, bitcoin] the single request's ids
parameter is "bitcoin,bitcoin" — the duplicate id appears twice — and it
differs from the request the deduplicated list would produce. -/
theorem simple_prices_no_dedup_counterexample :
    (get_simple_prices httpFail ["bitcoin", "bitcoin"]).2 = ["bitcoin,bitcoin"] ∧
    ¬ (get_simple_prices httpFail ["bitcoin", "bitcoin"]).2
        = (get_simple_prices httpFail (["bitcoin", "bitcoin"].dedup)).2 := by
  constructor
  · rfl
  · decide

/-- C3 (amended): for every list of coin ids, get_simple_prices joins the
list as given into one comma-joined ids parameter and issues exactly one
request with it; it performs no deduplication of its own (its callers pass
already-distinct ids). -/
theorem simple_prices_single_joined_call (http : String → HttpResult PriceResp)
    (ids : List String) :
    (get_simple_prices http ids).2 = [ids_param ids] ∧
    (get_simple_prices http ids).2.length = 1 :=
  ⟨rfl, rfl⟩

/-- Counterexample to C4: the quantity string "-5" parses, so add_coin
stores the negative quantity -5; the stored quantity is not always
non-negative. -/
theorem add_negative_quantity_counterexample :
    ((add_coin httpFail 1 "T" formNeg []).1.getLastD defHolding).quantity = -5 ∧
    ¬ (0 ≤ ((add_coin httpFail 1 "T" formNeg []).1.getLastD defHolding).quantity) := by
  decide

/-- C4 (amended): for every quantity input string supplied to add_coin, the
stored holding's quantity is the parsed numeric value when the string
parses as a number and 0.0 otherwise (parsing never raises); the stored
quantity may be negative, since no sign validation is performed. -/
theorem add_quantity_parsed_or_zero (http : String → HttpResult PriceResp)
    (newId : Nat) (t : String) (form : AddForm) (rows : List Holding) :
    (∀ q : Rat, pythonFloat (pyStrip (form.quantity.getD "0")) = some q →
      ((add_coin http newId t form rows).1.getLastD defHolding).quantity = q) ∧
    (pythonFloat (pyStrip (form.quantity.getD "0")) = none →
      ((add_coin http newId t form rows).1.getLastD defHolding).quantity = 0) := by
  constructor
  · intro q hq
    simp [add_coin, List.getLastD_concat, hq]
  · intro hq
    simp [add_coin, List.getLastD_concat, hq]

/-- Witness for C4 (amended): the malformed quantity "abc" does not parse
and the stored quantity defaults to 0. -/
theorem add_quantity_parsed_or_zero_witness :
    ((add_coin httpFail 2 "T" formAbc []).1.getLastD defHolding).quantity = 0 :=
  (add_quantity_parsed_or_zero httpFail 2 "T" formAbc []).2 (by decide)

/-- C7: for every Price Gateway operation — http_get itself, get_top_coins,
get_simple_prices and get_btc_chart_7d — a failing upstream (any request
error, retries exhausted included) yields the operation's empty or absent
default: None, [], the empty mapping, or the empty label-value pair; no
exception propagates, every operation still returns a value. -/
theorem gateway_failure_defaults :
    (∀ (α : Type), http_get (HttpResult.requestError : HttpResult α) = none) ∧
    get_top_coins HttpResult.requestError = [] ∧
    (∀ ids : List String, (get_simple_prices (fun _ => HttpResult.requestError) ids).1 = []) ∧
    (∀ fmt : Rat → String, get_btc_chart_7d fmt HttpResult.requestError = ([], [])) :=
  ⟨fun _ => rfl, rfl, fun _ => rfl, fun _ => rfl⟩

/-- C8: deleting an id no row carries is a no-op, not an error: the table
(and so its row count and every existing row) is unchanged. -/
theorem delete_nonexistent_noop (item_id : Nat) (rows : List Holding)
    (hnone : ∀ h ∈ rows, h.id ≠ item_id) :
    delete_coin item_id rows = rows ∧
    (delete_coin item_id rows).length = rows.length := by
  have heq : delete_coin item_id rows = rows := by
    unfold delete_coin
    refine List.filter_eq_self.2 fun h hm => ?_
    simpa using hnone h hm
  exact ⟨heq, by rw [heq]⟩

/-- Witness for C8: deleting the absent id 99 from the example table leaves
it unchanged. -/
theorem delete_nonexistent_noop_witness :
    delete_coin 99 rowsEx = rowsEx ∧ (delete_coin 99 rowsEx).length = rowsEx.length :=
  delete_nonexistent_noop 99 rowsEx (by decide)

/-- C9: although the table schema permits NULL in current_price and
last_updated, every operation keeps every row's two cached-price fields
present: add_coin always seeds a numeric price (0.0 when the gateway has
none) and a timestamp, a refresh only overwrites them with present values,
and deletion only removes rows. -/
theorem ops_preserve_complete (http : String → HttpResult PriceResp)
    (newId : Nat) (t : String) (form : AddForm) (rows : List Holding)
    (hinv : ∀ h ∈ rows, rowComplete h) :
    (∀ h ∈ (add_coin http newId t form rows).1, rowComplete h) ∧
    (∀ h ∈ (refresh_portfolio_prices http t rows).1, rowComplete h) ∧
    (∀ item_id : Nat, ∀ h ∈ delete_coin item_id rows, rowComplete h) := by
  refine ⟨?_, ?_, ?_⟩
  · intro h hm
    simp only [add_coin, List.mem_append, List.mem_singleton] at hm
    rcases hm with hm | hm
    · exact hinv h hm
    · subst hm
      exact ⟨rfl, rfl⟩
  · intro h hm
    obtain ⟨i, hi⟩ := List.mem_iff_getElem?.1 hm
    rw [refresh_fst_getElem?] at hi
    cases hg : rows[i]? with
    | none => rw [hg] at hi; simp at hi
    | some h0 =>
      rw [hg] at hi
      simp only [Option.map_some', Option.some.injEq] at hi
      subst hi
      have hc0 := hinv h0 (List.getElem?_mem hg)
      cases hc : getUsd (refreshPrices http rows) h0.coin_id with
      | none => simpa [refreshRow, hc] using hc0
      | some p => simp [refreshRow, hc, rowComplete]
  · intro item_id h hm
    exact hinv h (List.mem_of_mem_filter hm)

/-- Witness for C9: adding a holding over a failing gateway to the complete
example table yields a last row whose price (0.0) and timestamp are both
present. -/
theorem ops_preserve_complete_witness :
    rowComplete ((add_coin httpFail 5 "T" formAbc rowsEx).1.getLastD defHolding) :=
  (ops_preserve_complete httpFail 5 "T" formAbc rowsEx (by decide)).1 _ (by decide)

/-- C10: add_coin performs no non-emptiness validation of coin_id: a
submission whose coin_id field is missing or blank persists a holding whose
coin_id is the empty string, and that empty id is part of the distinct-id
set that the next refresh reads and batches into its single request. -/
theorem add_blank_coin_id (http : String → HttpResult PriceResp)
    (newId : Nat) (t : String) (form : AddForm) (rows : List Holding)
    (hblank : pyStrip (form.coin_id.getD "") = "") :
    ((add_coin http newId t form rows).1.getLastD defHolding).coin_id = "" ∧
    "" ∈ distinctCoinIds (add_coin http newId t form rows).1 ∧
    (refresh_portfolio_prices http t (add_coin http newId t form rows).1).2
      = [ids_param (distinctCoinIds (add_coin http newId t form rows).1)] := by
  have hcoin : pyLower (pyStrip (form.coin_id.getD "")) = "" := by rw [hblank]; rfl
  obtain ⟨x, hx, hxid⟩ :
      ∃ x, (add_coin http newId t form rows).1 = rows ++ [x] ∧ x.coin_id = "" :=
    ⟨_, rfl, hcoin⟩
  have hmem : "" ∈ distinctCoinIds (add_coin http newId t form rows).1 := by
    rw [hx]
    unfold distinctCoinIds
    rw [List.mem_dedup, List.mem_map]
    exact ⟨x, by simp, hxid⟩
  refine ⟨?_, hmem, ?_⟩
  · rw [hx, List.getLastD_concat]
    exact hxid
  · have hE : (distinctCoinIds (add_coin http newId t form rows).1).isEmpty = false := by
      simp only [List.isEmpty_eq_false]
      exact List.ne_nil_of_mem hmem
    unfold refresh_portfolio_prices
    simp [hE, get_simple_prices]

/-- Witness for C10: a form whose coin_id field is missing persists an
empty-string id that the following refresh batches. -/
theorem add_blank_coin_id_witness :
    ((add_coin httpFail 7 "T" formBlank []).1.getLastD defHolding).coin_id = "" ∧
    "" ∈ distinctCoinIds (add_coin httpFail 7 "T" formBlank []).1 ∧
    (refresh_portfolio_prices httpFail "T" (add_coin httpFail 7 "T" formBlank []).1).2
      = [ids_param (distinctCoinIds (add_coin httpFail 7 "T" formBlank []).1)] :=
  add_blank_coin_id httpFail 7 "T" formBlank [] (by decide)
